import Mathlib

/-!
# Verification of the toll-accounting ledger (`nod.cc`)

A shallow embedding of the C++ program: a toll ledger that reads crossing
records, pairs consecutive crossings of a vehicle on the same road into
traveled segments, accumulates totals per road and per vehicle-and-road-type,
and answers queries.  `std::map`s are embedded as sorted association lists,
machine `int` overflow is modelled as two's-complement wraparound where it is
reachable (`parse_distance`).
-/

namespace Nod

/-! ## Character classes (mirroring `std::regex` classes and `isspace`) -/

/-- `\s` of `std::regex` / stream whitespace: space, tab, LF, VT, FF, CR. -/
def isWS (c : Char) : Bool :=
  c.toNat = 32 || c.toNat = 9 || c.toNat = 10 || c.toNat = 11 || c.toNat = 12 || c.toNat = 13

/-- `\d` of `std::regex`: ASCII digit. -/
def isDigitC (c : Char) : Bool :=
  48 ≤ c.toNat && c.toNat ≤ 57

/-- `[a-zA-Z0-9]` of the plate regex. -/
def isAlnum (c : Char) : Bool :=
  isDigitC c || (65 ≤ c.toNat && c.toNat ≤ 90) || (97 ≤ c.toNat && c.toNat ≤ 122)

/-- Numeric value of a digit string (`std::stoul` / `std::stoi` on a match of
`\d+`). -/
def digitsVal (ds : List Char) : Nat :=
  ds.foldl (fun a c => a * 10 + (c.toNat - 48)) 0

/-! ## Key orderings (the `std::map` comparators) -/

/-- `char` comparison (`operator<` on characters, by code unit). -/
def charLtB (a b : Char) : Bool := decide (a.toNat < b.toNat)

/-- `std::string` `operator<`: lexicographic comparison by character. -/
def strLtB : List Char → List Char → Bool
  | [], [] => false
  | [], _ :: _ => true
  | _ :: _, [] => false
  | a :: as, b :: bs =>
    if a.toNat < b.toNat then true
    else if b.toNat < a.toNat then false
    else strLtB as bs

/-- Ordering of plate strings (`std::map<vehicle_t, _>` key order). -/
def strLt (a b : String) : Bool := strLtB a.data b.data

/-- Ordering of `road_t = std::tuple<road_num_t, road_type_t>`: lexicographic,
number first, then type letter. -/
def roadLt (a b : Nat × Char) : Bool :=
  if a.1 < b.1 then true
  else if b.1 < a.1 then false
  else charLtB a.2 b.2

/-- Two's-complement wraparound of a 32-bit signed `int` computation: every
arithmetic step the C++ performs on a `distance_t = int` is reduced into
`[-2^31, 2^31)`.  (Signed overflow is undefined behavior in C++; this models
the two's-complement wrap of the target platform.) -/
def wrap32 (n : Int) : Int := (n + 2147483648) % 4294967296 - 2147483648

/-! ## Sorted association lists (the `std::map` embedding) -/

variable {α β : Type}

/-- `std::map::find` / `count`: first (unique) entry with the given key. -/
def lookupD [DecidableEq α] (k : α) : List (α × β) → Option β
  | [] => none
  | (k1, v) :: rest => if k1 = k then some v else lookupD k rest

/-- `std::map::erase` of the found entry. -/
def eraseKey [DecidableEq α] (k : α) : List (α × β) → List (α × β)
  | [] => []
  | (k1, v) :: rest => if k1 = k then rest else (k1, v) :: eraseKey k rest

/-- Ordered insert-or-assign (`map[k] = v`): keeps the list sorted by `lt`,
replacing the entry when the key is already present. -/
def insertSorted (lt : α → α → Bool) (k : α) (v : β) : List (α × β) → List (α × β)
  | [] => [(k, v)]
  | (k1, v1) :: rest =>
    if lt k k1 then (k, v) :: (k1, v1) :: rest
    else if lt k1 k then (k1, v1) :: insertSorted lt k v rest
    else (k, v) :: rest

/-- `map[k] += delta` on an `int`-valued map: absent keys are
value-initialised to `0` first; the addition is 32-bit `int` arithmetic and
wraps on overflow. -/
def addTo [DecidableEq α] (lt : α → α → Bool) (k : α) (delta : Int)
    (m : List (α × Int)) : List (α × Int) :=
  insertSorted lt k (wrap32 ((lookupD k m).getD 0 + delta)) m

/-! ## Domain parsers -/

/-- `parse_road`: regex `^(A|S)([1-9]\d{0,2})$`; on a match, the pair
`(number, type)` exactly as `road_t(stoul(num), type)`. -/
def parse_road (s : String) : Option (Nat × Char) :=
  match s.data with
  | [] => none
  | c :: ds =>
    if (c = 'A' ∨ c = 'S') ∧ roadNumPart ds = true then some (digitsVal ds, c) else none
where
  /-- `[1-9]\d{0,2}`: one to three digits, no leading zero. -/
  roadNumPart : List Char → Bool
    | [] => false
    | c :: rest =>
      decide (c ≠ '0') && isDigitC c && rest.all isDigitC && decide (rest.length ≤ 2)

/-- `parse_vehicle`: regex `^[a-zA-Z0-9]{3,11}$`; the `vehicle_t` is the plate
string itself. -/
def parse_vehicle (s : String) : Option String :=
  if s.data.all isAlnum = true ∧ 3 ≤ s.data.length ∧ s.data.length ≤ 11 then some s
  else none

/-- `(0|[1-9]\d*)`: the integer part of a distance marker. -/
def markerIntPart : List Char → Bool
  | [] => false
  | [c] => isDigitC c
  | c :: rest => decide (c ≠ '0') && isDigitC c && rest.all isDigitC

/-- `INT_MAX` on the target platform (32-bit `int`). -/
def intMax : Nat := 2147483647

/-- `parse_distance`: regex `^(0|[1-9]\d*),(\d)$`; on a match,
`stoi(intpart) * 10 + digit` computed in 32-bit `int` arithmetic
(`stoi` throws, and `nullopt` is returned, only when the integer part itself
exceeds `INT_MAX`; the subsequent `* 10 + digit` wraps around). -/
def parse_distance (s : String) : Option Int :=
  let ds := s.data.takeWhile (fun c => decide (c ≠ ','))
  let rest := s.data.dropWhile (fun c => decide (c ≠ ','))
  match rest with
  | [_, d] =>
    if isDigitC d = true ∧ markerIntPart ds = true then
      if intMax < digitsVal ds then none
      else some (wrap32 (Int.ofNat (digitsVal ds) * 10 + Int.ofNat (d.toNat - 48)))
    else none
  | _ => none

/-! ## Ledger state and `add_entry` -/

/-- `state_t = (vehicles_data_t, roads_data_t, not_finished_data_t)`:
road-type totals per vehicle, totals per road, and pending (unmatched)
entries per vehicle. -/
structure state_t where
  vehicles_data : List (String × List (Char × Int))
  roads_data : List ((Nat × Char) × Int)
  not_finished : List (String × ((Nat × Char) × Int × (Nat × String)))
  deriving DecidableEq

/-- The default-constructed state: all three maps empty. -/
def initial_state : state_t := ⟨[], [], []⟩

/-- `std::abs(distance - start_distance)` in `int` arithmetic: the
subtraction wraps on overflow, and `std::abs` of `INT_MIN` (undefined
behavior in C++) is modelled as its two's-complement wrap, `INT_MIN`
itself. -/
def traveled32 (distance start : Int) : Int := wrap32 |wrap32 (distance - start)|

/-- `vehicles_data[vehicle][road_type] += traveled`. -/
def addVehType (v : String) (t : Char) (delta : Int)
    (m : List (String × List (Char × Int))) : List (String × List (Char × Int)) :=
  insertSorted strLt v (addTo charLtB t delta ((lookupD v m).getD [])) m

/-- `add_entry`: record one crossing.  No pending entry: store one.  Pending
entry on the same road: add `abs(distance - start)` to both totals tables and
erase the pending entry.  Pending entry on a different road: replace it and
return the superseded entry's line as the error. -/
def add_entry (s : state_t) (vehicle : String) (road : Nat × Char) (distance : Int)
    (line_desc : Nat × String) : state_t × Option (Nat × String) :=
  match lookupD vehicle s.not_finished with
  | some (nf_road, start_distance, paired_line) =>
    if nf_road = road then
      ({ vehicles_data := addVehType vehicle road.2 (traveled32 distance start_distance) s.vehicles_data,
         roads_data := addTo roadLt road (traveled32 distance start_distance) s.roads_data,
         not_finished := eraseKey vehicle s.not_finished }, none)
    else
      ({ s with not_finished := insertSorted strLt vehicle (road, distance, line_desc) s.not_finished },
       some paired_line)
  | none =>
    ({ s with not_finished := insertSorted strLt vehicle (road, distance, line_desc) s.not_finished },
     none)

/-! ## Line tokenization and dispatch -/

/-- One pass of `istringstream >> word` extraction: skip whitespace, take a
maximal run of non-whitespace.  Fuel-indexed; `fuel = length` always
suffices, as each step consumes at least one character. -/
def words_aux : Nat → List Char → List String
  | 0, _ => []
  | fuel + 1, l =>
    match l.dropWhile isWS with
    | [] => []
    | c :: rest =>
      String.mk ((c :: rest).takeWhile (fun x => !isWS x)) ::
        words_aux fuel ((c :: rest).dropWhile (fun x => !isWS x))

/-- `split_args`: all whitespace-separated tokens of a line. -/
def split_args (l : List Char) : List String := words_aux l.length l

/-- `parse_info`: a crossing-record line is exactly three tokens
`<plate> <road> <marker>`, each passing its domain parser. -/
def parse_info (line : String) : Option (String × (Nat × Char) × Int) :=
  match split_args line.data with
  | [a0, a1, a2] =>
    match parse_vehicle a0, parse_road a1, parse_distance a2 with
    | some v, some r, some d => some (v, r, d)
    | _, _, _ => none
  | _ => none

/-- The capture of the command regex `^\s*\?\s*([^\s]*)\s*$`: optional
whitespace, `?`, optional whitespace, one (possibly empty) whitespace-free
token, optional trailing whitespace. -/
def toCommandArg (l : List Char) : Option (List Char) :=
  match l.dropWhile isWS with
  | [] => none
  | c :: rest =>
    if c = '?' then
      let rest1 := rest.dropWhile isWS
      let tok := rest1.takeWhile (fun x => !isWS x)
      let rest2 := (rest1.dropWhile (fun x => !isWS x)).dropWhile isWS
      if rest2 = [] then some tok else none
    else none

/-- `parse_command`: an empty argument queries everything; a non-empty
argument must parse as a road or as a vehicle (or both), else the line is not
a command. -/
def parse_command (line : String) : Option (Option (Nat × Char) × Option String) :=
  match toCommandArg line.data with
  | none => none
  | some [] => some (none, none)
  | some (c :: cs) =>
    match parse_road (String.mk (c :: cs)), parse_vehicle (String.mk (c :: cs)) with
    | none, none => none
    | road, vehicle => some (road, vehicle)

/-! ## Output formatting -/

/-- `printable_distance_t`: `distance / 10 << "," << distance % 10` with C++
truncating `int` division. -/
def fmtDistance (d : Int) : String := toString (d.tdiv 10) ++ "," ++ toString (d.tmod 10)

/-- `operator<<` on `road_t`: the type letter, then the number. -/
def fmtRoad (r : Nat × Char) : String := String.singleton r.2 ++ toString r.1

/-- `operator<<` on `road_type_data_t`: entries joined by single spaces, each
as `<type> <distance>`. -/
def fmtTypeTotals : List (Char × Int) → String
  | [] => ""
  | [p] => String.singleton p.1 ++ " " ++ fmtDistance p.2
  | p :: rest => String.singleton p.1 ++ " " ++ fmtDistance p.2 ++ " " ++ fmtTypeTotals rest

/-- One query-output line for a vehicle: `<plate> <type totals>`. -/
def fmtVehicleLine (p : String × List (Char × Int)) : String :=
  p.1 ++ " " ++ fmtTypeTotals p.2

/-- One query-output line for a road: `<road> <distance>`. -/
def fmtRoadLine (p : (Nat × Char) × Int) : String :=
  fmtRoad p.1 ++ " " ++ fmtDistance p.2

/-- `print_error`: the diagnostic `Error in line <n>: <original text>`. -/
def print_error (e : Nat × String) : String :=
  "Error in line " ++ toString e.1 ++ ": " ++ e.2

/-- `handle_command`: `none` when the line is not a command; otherwise the
list of stdout lines: the full dump for an empty argument, then the vehicle
section if the argument parsed as a present vehicle, then the road section if
it parsed as a present road. -/
def handle_command (s : state_t) (line : String) : Option (List String) :=
  match parse_command line with
  | none => none
  | some (cmd_road, cmd_vehicle) =>
    let all_part :=
      match cmd_road, cmd_vehicle with
      | none, none => s.vehicles_data.map fmtVehicleLine ++ s.roads_data.map fmtRoadLine
      | _, _ => []
    let vehicle_part :=
      match cmd_vehicle with
      | some v =>
        match lookupD v s.vehicles_data with
        | some inner => [fmtVehicleLine (v, inner)]
        | none => []
      | none => []
    let road_part :=
      match cmd_road with
      | some r =>
        match lookupD r s.roads_data with
        | some dist => [fmtRoadLine (r, dist)]
        | none => []
      | none => []
    some (all_part ++ vehicle_part ++ road_part)

/-- `handle_info`: `none` when the line is not a crossing record; otherwise
the new state and the stderr lines (a conflict diagnostic, if any). -/
def handle_info (s : state_t) (ld : Nat × String) : Option (state_t × List String) :=
  match parse_info ld.2 with
  | none => none
  | some (v, r, d) =>
    let res := add_entry s v r d ld
    some (res.1,
      match res.2 with
      | some e => [print_error e]
      | none => [])

/-- One iteration of the `handle_all` loop: skip an empty line, else try the
command grammar, else the record grammar, else report the line as malformed.
Result: `(state, stdout lines, stderr lines)`. -/
def handle_line (s : state_t) (ld : Nat × String) : state_t × List String × List String :=
  if ld.2 = "" then (s, [], [])
  else
    match handle_command s ld.2 with
    | some out => (s, out, [])
    | none =>
      match handle_info s ld with
      | some (s1, errs) => (s1, [], errs)
      | none => (s, [], [print_error ld])

/-- The `handle_all` loop from a given state and 0-based line counter
(numbers are incremented before use, so lines are numbered from
`line_no + 1`). -/
def run (s : state_t) (line_no : Nat) : List String → state_t × List String × List String
  | [] => (s, [], [])
  | l :: rest =>
    let r1 := handle_line s (line_no + 1, l)
    let r2 := run r1.1 (line_no + 1) rest
    (r2.1, r1.2.1 ++ r2.2.1, r1.2.2 ++ r2.2.2)

/-- `handle_all`: process the whole input from the default-constructed state;
nothing is emitted after the last line. -/
def handle_all (lines : List String) : state_t × List String × List String :=
  run initial_state 0 lines

/-! ## Facts about the key orderings -/

theorem charEq_of_toNat_eq {a b : Char} (h : a.toNat = b.toNat) : a = b := by
  cases a; cases b
  simp only [Char.toNat] at h
  congr 1
  exact UInt32.ext h

theorem strEq_of_data_eq {a b : String} (h : a.data = b.data) : a = b := by
  cases a; cases b
  exact congrArg String.mk h

theorem charLtB_irrefl (a : Char) : charLtB a a = false := by
  simp [charLtB]

theorem charLtB_conn {a b : Char} (h1 : charLtB a b = false) (h2 : charLtB b a = false) :
    a = b := by
  apply charEq_of_toNat_eq
  simp only [charLtB, decide_eq_false_iff_not, Nat.not_lt] at h1 h2
  omega

theorem charLtB_trans {a b c : Char} (h1 : charLtB a b = true) (h2 : charLtB b c = true) :
    charLtB a c = true := by
  simp only [charLtB, decide_eq_true_eq] at h1 h2 ⊢
  omega

theorem strLtB_irrefl (a : List Char) : strLtB a a = false := by
  induction a with
  | nil => rfl
  | cons x xs ih => simp [strLtB, ih]

theorem strLtB_conn : ∀ {a b : List Char}, strLtB a b = false → strLtB b a = false → a = b
  | [], [], _, _ => rfl
  | [], _ :: _, h1, _ => by simp [strLtB] at h1
  | _ :: _, [], _, h2 => by simp [strLtB] at h2
  | a :: as, b :: bs, h1, h2 => by
    simp only [strLtB] at h1 h2
    by_cases hab : a.toNat < b.toNat
    · simp [hab] at h1
    · by_cases hba : b.toNat < a.toNat
      · simp [hba] at h2
      · have he : a = b := charEq_of_toNat_eq (by omega)
        subst he
        simp only [hab, if_false, if_neg hab] at h1 h2
        rw [strLtB_conn h1 h2]

theorem strLtB_cons (a b : Char) (as bs : List Char) :
    strLtB (a :: as) (b :: bs) = true ↔
      a.toNat < b.toNat ∨ (a = b ∧ strLtB as bs = true) := by
  simp only [strLtB]
  by_cases h1 : a.toNat < b.toNat
  · simp [h1]
  · by_cases h2 : b.toNat < a.toNat
    · simp only [h1, if_neg h1, if_pos h2]
      constructor
      · intro h; exact absurd h (by simp)
      · rintro (h | ⟨rfl, _⟩)
        · exact h.elim
        · exact absurd h2 (by omega)
    · have he : a = b := charEq_of_toNat_eq (by omega)
      subst he
      simp [h1]

theorem strLtB_trans {a : List Char} : ∀ {b c : List Char},
    strLtB a b = true → strLtB b c = true → strLtB a c = true := by
  induction a with
  | nil =>
    intro b c h1 h2
    cases b with
    | nil => simp [strLtB] at h1
    | cons y ys =>
      cases c with
      | nil => simp [strLtB] at h2
      | cons z zs => rfl
  | cons x xs ih =>
    intro b c h1 h2
    cases b with
    | nil => simp [strLtB] at h1
    | cons y ys =>
      cases c with
      | nil => simp [strLtB] at h2
      | cons z zs =>
        rw [strLtB_cons] at h1 h2 ⊢
        rcases h1 with h1 | ⟨rfl, h1⟩
        · rcases h2 with h2 | ⟨rfl, h2⟩
          · left; omega
          · left; exact h1
        · rcases h2 with h2 | ⟨rfl, h2⟩
          · left; exact h2
          · right; exact ⟨rfl, ih h1 h2⟩

theorem strLt_irrefl (a : String) : strLt a a = false := strLtB_irrefl a.data

theorem strLt_conn {a b : String} (h1 : strLt a b = false) (h2 : strLt b a = false) :
    a = b :=
  strEq_of_data_eq (strLtB_conn h1 h2)

theorem strLt_trans {a b c : String} (h1 : strLt a b = true) (h2 : strLt b c = true) :
    strLt a c = true :=
  strLtB_trans h1 h2

theorem roadLt_irrefl (a : Nat × Char) : roadLt a a = false := by
  simp [roadLt, charLtB_irrefl]

theorem roadLt_conn {a b : Nat × Char} (h1 : roadLt a b = false) (h2 : roadLt b a = false) :
    a = b := by
  obtain ⟨n1, c1⟩ := a
  obtain ⟨n2, c2⟩ := b
  simp only [roadLt] at h1 h2
  by_cases hn : n1 < n2
  · simp [hn] at h1
  · by_cases hn2 : n2 < n1
    · simp [hn2] at h2
    · have he : n1 = n2 := by omega
      subst he
      simp only [hn, if_neg hn, if_false] at h1 h2
      rw [charLtB_conn h1 h2]

theorem roadLt_iff (a b : Nat × Char) :
    roadLt a b = true ↔ a.1 < b.1 ∨ (a.1 = b.1 ∧ charLtB a.2 b.2 = true) := by
  simp only [roadLt]
  by_cases h1 : a.1 < b.1
  · simp [h1]
  · by_cases h2 : b.1 < a.1
    · simp only [if_neg h1, if_pos h2]
      constructor
      · intro h; exact absurd h (by simp)
      · rintro (h | ⟨he, _⟩)
        · exact absurd h (by omega)
        · exact absurd he (by omega)
    · have he : a.1 = b.1 := by omega
      simp [h1, h2, he]

theorem roadLt_trans {a b c : Nat × Char} (h1 : roadLt a b = true) (h2 : roadLt b c = true) :
    roadLt a c = true := by
  rw [roadLt_iff] at h1 h2 ⊢
  rcases h1 with h1 | ⟨he1, hc1⟩
  · rcases h2 with h2 | ⟨he2, _⟩
    · left; omega
    · left; omega
  · rcases h2 with h2 | ⟨he2, hc2⟩
    · left; omega
    · right; exact ⟨by omega, charLtB_trans hc1 hc2⟩

/-! ## Facts about the map embedding -/

theorem lookupD_insertSorted_self [DecidableEq α] (lt : α → α → Bool)
    (hirr : ∀ x, lt x x = false) (k : α) (v : β) :
    ∀ m : List (α × β), lookupD k (insertSorted lt k v m) = some v := by
  intro m
  induction m with
  | nil => simp [insertSorted, lookupD]
  | cons p rest ih =>
    obtain ⟨k1, v1⟩ := p
    simp only [insertSorted]
    by_cases h1 : lt k k1
    · simp [h1, lookupD]
    · by_cases h2 : lt k1 k
      · have hne : k1 ≠ k := by
          intro he
          subst he
          rw [hirr] at h2
          exact absurd h2 (by simp)
        simp [h1, h2, lookupD, hne, ih]
      · simp [h1, h2, lookupD]

theorem eraseKey_insertSorted [DecidableEq α] (lt : α → α → Bool)
    (hconn : ∀ x y, lt x y = false → lt y x = false → x = y) (k : α) (v : β) :
    ∀ m : List (α × β), lookupD k m = none →
      eraseKey k (insertSorted lt k v m) = m := by
  intro m
  induction m with
  | nil => intro _; simp [insertSorted, eraseKey]
  | cons p rest ih =>
    obtain ⟨k1, v1⟩ := p
    intro h
    have hk : k1 ≠ k := by
      intro he
      simp [lookupD, he] at h
    have hrest : lookupD k rest = none := by
      simpa [lookupD, hk] using h
    simp only [insertSorted]
    by_cases h1 : lt k k1
    · simp [h1, eraseKey]
    · by_cases h2 : lt k1 k
      · simp [h1, h2, eraseKey, hk, ih hrest]
      · exact absurd (hconn k k1 (by simpa using h1) (by simpa using h2)) (Ne.symm hk)

theorem mem_insertSorted (lt : α → α → Bool) (k : α) (v : β) :
    ∀ {m : List (α × β)} {x : α × β}, x ∈ insertSorted lt k v m → x = (k, v) ∨ x ∈ m := by
  intro m
  induction m with
  | nil =>
    intro x hx
    simp only [insertSorted, List.mem_singleton] at hx
    exact Or.inl hx
  | cons p rest ih =>
    obtain ⟨k1, v1⟩ := p
    intro x hx
    simp only [insertSorted] at hx
    by_cases h1 : lt k k1
    · simp only [if_pos h1, List.mem_cons] at hx
      rcases hx with h | h | h
      · exact Or.inl h
      · exact Or.inr (by simp [h])
      · exact Or.inr (by simp [h])
    · by_cases h2 : lt k1 k
      · simp only [if_neg h1, if_pos h2, List.mem_cons] at hx
        rcases hx with h | h
        · exact Or.inr (by simp [h])
        · rcases ih h with h3 | h3
          · exact Or.inl h3
          · exact Or.inr (by simp [h3])
      · simp only [if_neg h1, if_neg h2, List.mem_cons] at hx
        rcases hx with h | h
        · exact Or.inl h
        · exact Or.inr (by simp [h])

theorem lookupD_mem [DecidableEq α] {k : α} :
    ∀ {m : List (α × β)} {v : β}, lookupD k m = some v → (k, v) ∈ m := by
  intro m
  induction m with
  | nil => intro v h; simp [lookupD] at h
  | cons p rest ih =>
    obtain ⟨k1, v1⟩ := p
    intro v h
    by_cases hk : k1 = k
    · subst hk
      have h2 : some v1 = some v := by simpa [lookupD] using h
      injection h2 with h2
      subst h2
      exact List.mem_cons_self _ _
    · simp only [lookupD, if_neg hk] at h
      exact List.mem_cons_of_mem _ (ih h)

theorem pairwise_insertSorted (lt : α → α → Bool)
    (htr : ∀ x y z, lt x y = true → lt y z = true → lt x z = true)
    (hconn : ∀ x y, lt x y = false → lt y x = false → x = y)
    (k : α) (v : β) :
    ∀ {m : List (α × β)}, m.Pairwise (fun x y => lt x.1 y.1 = true) →
      (insertSorted lt k v m).Pairwise (fun x y => lt x.1 y.1 = true) := by
  intro m
  induction m with
  | nil => intro _; simp [insertSorted]
  | cons p rest ih =>
    obtain ⟨k1, v1⟩ := p
    intro h
    rw [List.pairwise_cons] at h
    obtain ⟨hhead, hrest⟩ := h
    simp only [insertSorted]
    by_cases h1 : lt k k1
    · simp only [if_pos h1]
      rw [List.pairwise_cons]
      constructor
      · intro y hy
        rcases List.mem_cons.mp hy with h3 | h3
        · subst h3; exact h1
        · exact htr _ _ _ h1 (hhead y h3)
      · rw [List.pairwise_cons]
        exact ⟨hhead, hrest⟩
    · by_cases h2 : lt k1 k
      · simp only [if_neg h1, if_pos h2]
        rw [List.pairwise_cons]
        constructor
        · intro y hy
          rcases mem_insertSorted lt k v hy with h3 | h3
          · subst h3; exact h2
          · exact hhead y h3
        · exact ih hrest
      · simp only [if_neg h1, if_neg h2]
        have he : k = k1 := hconn k k1 (by simpa using h1) (by simpa using h2)
        rw [List.pairwise_cons]
        constructor
        · intro y hy
          rw [he]
          exact hhead y hy
        · exact hrest

theorem eraseKey_sublist [DecidableEq α] (k : α) :
    ∀ m : List (α × β), (eraseKey k m).Sublist m := by
  intro m
  induction m with
  | nil => simp [eraseKey]
  | cons p rest ih =>
    obtain ⟨k1, v1⟩ := p
    simp only [eraseKey]
    by_cases hk : k1 = k
    · simp only [if_pos hk]
      exact List.sublist_cons_self _ _
    · simp only [if_neg hk]
      exact List.Sublist.cons₂ _ ih

theorem pairwise_eraseKey [DecidableEq α] (k : α) {m : List (α × β)}
    {R : α × β → α × β → Prop} (h : m.Pairwise R) : (eraseKey k m).Pairwise R :=
  List.Pairwise.sublist (eraseKey_sublist k m) h

theorem lookupD_addTo_self [DecidableEq α] (lt : α → α → Bool)
    (hirr : ∀ x, lt x x = false) (k : α) (delta : Int) (m : List (α × Int)) :
    lookupD k (addTo lt k delta m) = some (wrap32 ((lookupD k m).getD 0 + delta)) :=
  lookupD_insertSorted_self lt hirr k _ m

/-! ## Small facts about `add_entry` -/

theorem strLt_conn_fn : ∀ x y : String, strLt x y = false → strLt y x = false → x = y :=
  fun _ _ hx hy => strLt_conn hx hy

theorem add_entry_no_pending (s : state_t) (v : String) (r : Nat × Char) (d : Int)
    (ld : Nat × String) (h : lookupD v s.not_finished = none) :
    add_entry s v r d ld =
      ({ s with not_finished := insertSorted strLt v (r, d, ld) s.not_finished }, none) := by
  simp [add_entry, h]

theorem add_entry_match (s : state_t) (v : String) (r : Nat × Char) (d0 d : Int)
    (ld0 ld : Nat × String) (h : lookupD v s.not_finished = some (r, d0, ld0)) :
    add_entry s v r d ld =
      ({ vehicles_data := addVehType v r.2 (traveled32 d d0) s.vehicles_data,
         roads_data := addTo roadLt r (traveled32 d d0) s.roads_data,
         not_finished := eraseKey v s.not_finished }, none) := by
  simp [add_entry, h]

theorem add_entry_conflict (s : state_t) (v : String) (r0 r : Nat × Char) (d0 d : Int)
    (ld0 ld : Nat × String) (h : lookupD v s.not_finished = some (r0, d0, ld0))
    (hne : r0 ≠ r) :
    add_entry s v r d ld =
      ({ s with not_finished := insertSorted strLt v (r, d, ld) s.not_finished },
       some ld0) := by
  simp [add_entry, h, hne]

/-! ## Claims C1, C2, C4 -/

/-- In-range values pass through the 32-bit wraparound unchanged. -/
theorem wrap32_eq_self {n : Int} (h1 : -2147483648 ≤ n) (h2 : n ≤ 2147483647) :
    wrap32 n = n := by
  unfold wrap32
  rw [Int.emod_eq_of_lt (by omega) (by omega)]
  omega

/-- When `|d2 - d1|` fits in `int`, the `int` computation of the traveled
distance agrees with the exact absolute difference. -/
theorem traveled32_eq_abs {d1 d2 : Int} (h : |d2 - d1| ≤ 2147483647) :
    traveled32 d2 d1 = |d2 - d1| := by
  rcases abs_cases (d2 - d1) with ⟨he, hs⟩ | ⟨he, hs⟩ <;>
  · rw [he] at h
    have hin : wrap32 (d2 - d1) = d2 - d1 := wrap32_eq_self (by omega) (by omega)
    unfold traveled32
    rw [hin, he]
    exact wrap32_eq_self (by omega) (by omega)

/-- Claim C1 counterexample: both distances are values `parse_distance`
actually produces (the first through its overflow), yet closing the matched
segment increases the road total by `1000000000`, not by the exact
`abs(d2 - d1) = 3294967296` — the subtraction `distance - start_distance` is
`int` arithmetic and wraps. -/
theorem claim_C1_counterexample :
    parse_distance "300000000,0" = some (-1294967296)
    ∧ parse_distance "200000000,0" = some 2000000000
    ∧ lookupD "ABC123" initial_state.not_finished = none
    ∧ (add_entry initial_state "ABC123" (1, 'A') (-1294967296) (1, "ABC123 A1 300000000,0")).2 = none
    ∧ (add_entry (add_entry initial_state "ABC123" (1, 'A') (-1294967296) (1, "ABC123 A1 300000000,0")).1 "ABC123" (1, 'A') 2000000000 (2, "ABC123 A1 200000000,0")).2 = none
    ∧ (lookupD (1, 'A') (add_entry (add_entry initial_state "ABC123" (1, 'A') (-1294967296) (1, "ABC123 A1 300000000,0")).1 "ABC123" (1, 'A') 2000000000 (2, "ABC123 A1 200000000,0")).1.roads_data).getD 0
        ≠ (lookupD (1, 'A') initial_state.roads_data).getD 0 + |(2000000000 : Int) - (-1294967296)| := by
  refine ⟨?_, ?_, ?_, ?_, ?_, ?_⟩ <;> decide

/-- Claim C1 (amended): recording `(v, r, d1)` with no pending entry for `v`
and then `(v, r, d2)` returns no error from either call and leaves `v`
without a pending entry; the road total of `r` and the road-type total of
`v` for `r`'s type each become the 32-bit wrap of `old + traveled32 d2 d1`
(the `int` computation of `abs(d2 - d1)` added with `int` wraparound) — in
particular an increase by exactly `abs(d2 - d1)` whenever `abs(d2 - d1)` and
the grown total fit in `int`. -/
theorem claim_C1_amended_thm (s : state_t) (v : String) (r : Nat × Char) (d1 d2 : Int)
    (ld1 ld2 : Nat × String) (h : lookupD v s.not_finished = none) :
    (add_entry s v r d1 ld1).2 = none
    ∧ (add_entry (add_entry s v r d1 ld1).1 v r d2 ld2).2 = none
    ∧ (lookupD r (add_entry (add_entry s v r d1 ld1).1 v r d2 ld2).1.roads_data).getD 0
        = wrap32 ((lookupD r s.roads_data).getD 0 + traveled32 d2 d1)
    ∧ (lookupD r.2 ((lookupD v (add_entry (add_entry s v r d1 ld1).1 v r d2 ld2).1.vehicles_data).getD [])).getD 0
        = wrap32 ((lookupD r.2 ((lookupD v s.vehicles_data).getD [])).getD 0 + traveled32 d2 d1)
    ∧ lookupD v (add_entry (add_entry s v r d1 ld1).1 v r d2 ld2).1.not_finished = none
    ∧ (|d2 - d1| ≤ 2147483647 →
        -2147483648 ≤ (lookupD r s.roads_data).getD 0 + |d2 - d1| →
        (lookupD r s.roads_data).getD 0 + |d2 - d1| ≤ 2147483647 →
        (lookupD r (add_entry (add_entry s v r d1 ld1).1 v r d2 ld2).1.roads_data).getD 0
          = (lookupD r s.roads_data).getD 0 + |d2 - d1|)
    ∧ (|d2 - d1| ≤ 2147483647 →
        -2147483648 ≤ (lookupD r.2 ((lookupD v s.vehicles_data).getD [])).getD 0 + |d2 - d1| →
        (lookupD r.2 ((lookupD v s.vehicles_data).getD [])).getD 0 + |d2 - d1| ≤ 2147483647 →
        (lookupD r.2 ((lookupD v (add_entry (add_entry s v r d1 ld1).1 v r d2 ld2).1.vehicles_data).getD [])).getD 0
          = (lookupD r.2 ((lookupD v s.vehicles_data).getD [])).getD 0 + |d2 - d1|) := by
  have e1 := add_entry_no_pending s v r d1 ld1 h
  have hl : lookupD v (insertSorted strLt v (r, d1, ld1) s.not_finished) = some (r, d1, ld1) :=
    lookupD_insertSorted_self strLt strLt_irrefl v _ _
  have e2 := add_entry_match
    ({ s with not_finished := insertSorted strLt v (r, d1, ld1) s.not_finished }) v r d1 d2 ld1 ld2 hl
  rw [e1]
  simp only at e2
  rw [e2]
  have hroad : (lookupD r (addTo roadLt r (traveled32 d2 d1) s.roads_data)).getD 0
      = wrap32 ((lookupD r s.roads_data).getD 0 + traveled32 d2 d1) := by
    rw [lookupD_addTo_self roadLt roadLt_irrefl]
    simp
  have hveh : (lookupD r.2 ((lookupD v (addVehType v r.2 (traveled32 d2 d1) s.vehicles_data)).getD [])).getD 0
      = wrap32 ((lookupD r.2 ((lookupD v s.vehicles_data).getD [])).getD 0 + traveled32 d2 d1) := by
    simp only [addVehType]
    rw [lookupD_insertSorted_self strLt strLt_irrefl]
    simp only [Option.getD_some]
    rw [lookupD_addTo_self charLtB charLtB_irrefl]
    simp
  refine ⟨rfl, rfl, hroad, hveh, ?_, ?_, ?_⟩
  · simp only
    rw [eraseKey_insertSorted strLt strLt_conn_fn v (r, d1, ld1) s.not_finished h]
    exact h
  · intro ht hlo hhi
    rw [hroad, traveled32_eq_abs ht, wrap32_eq_self hlo hhi]
  · intro ht hlo hhi
    rw [hveh, traveled32_eq_abs ht, wrap32_eq_self hlo hhi]

/-- Claim C1 witness: a concrete run of the two matching crossings from the
empty ledger, where everything stays in range and the totals grow by exactly
`|150 - 100| = 50`. -/
theorem claim_C1_amended_witness :
    lookupD "ABC123" initial_state.not_finished = none
    ∧ ((add_entry initial_state "ABC123" (1, 'A') 100 (1, "ABC123 A1 10,0")).2 = none
    ∧ (add_entry (add_entry initial_state "ABC123" (1, 'A') 100 (1, "ABC123 A1 10,0")).1 "ABC123" (1, 'A') 150 (2, "ABC123 A1 15,0")).2 = none
    ∧ (lookupD (1, 'A') (add_entry (add_entry initial_state "ABC123" (1, 'A') 100 (1, "ABC123 A1 10,0")).1 "ABC123" (1, 'A') 150 (2, "ABC123 A1 15,0")).1.roads_data).getD 0
        = wrap32 ((lookupD (1, 'A') initial_state.roads_data).getD 0 + traveled32 150 100)
    ∧ (lookupD (1, 'A').2 ((lookupD "ABC123" (add_entry (add_entry initial_state "ABC123" (1, 'A') 100 (1, "ABC123 A1 10,0")).1 "ABC123" (1, 'A') 150 (2, "ABC123 A1 15,0")).1.vehicles_data).getD [])).getD 0
        = wrap32 ((lookupD (1, 'A').2 ((lookupD "ABC123" initial_state.vehicles_data).getD [])).getD 0 + traveled32 150 100)
    ∧ lookupD "ABC123" (add_entry (add_entry initial_state "ABC123" (1, 'A') 100 (1, "ABC123 A1 10,0")).1 "ABC123" (1, 'A') 150 (2, "ABC123 A1 15,0")).1.not_finished = none
    ∧ (|(150 : Int) - 100| ≤ 2147483647 →
        -2147483648 ≤ (lookupD (1, 'A') initial_state.roads_data).getD 0 + |(150 : Int) - 100| →
        (lookupD (1, 'A') initial_state.roads_data).getD 0 + |(150 : Int) - 100| ≤ 2147483647 →
        (lookupD (1, 'A') (add_entry (add_entry initial_state "ABC123" (1, 'A') 100 (1, "ABC123 A1 10,0")).1 "ABC123" (1, 'A') 150 (2, "ABC123 A1 15,0")).1.roads_data).getD 0
          = (lookupD (1, 'A') initial_state.roads_data).getD 0 + |(150 : Int) - 100|)
    ∧ (|(150 : Int) - 100| ≤ 2147483647 →
        -2147483648 ≤ (lookupD (1, 'A').2 ((lookupD "ABC123" initial_state.vehicles_data).getD [])).getD 0 + |(150 : Int) - 100| →
        (lookupD (1, 'A').2 ((lookupD "ABC123" initial_state.vehicles_data).getD [])).getD 0 + |(150 : Int) - 100| ≤ 2147483647 →
        (lookupD (1, 'A').2 ((lookupD "ABC123" (add_entry (add_entry initial_state "ABC123" (1, 'A') 100 (1, "ABC123 A1 10,0")).1 "ABC123" (1, 'A') 150 (2, "ABC123 A1 15,0")).1.vehicles_data).getD [])).getD 0
          = (lookupD (1, 'A').2 ((lookupD "ABC123" initial_state.vehicles_data).getD [])).getD 0 + |(150 : Int) - 100|)) :=
  ⟨by decide,
   claim_C1_amended_thm initial_state "ABC123" (1, 'A') 100 150 (1, "ABC123 A1 10,0") (2, "ABC123 A1 15,0") (by decide)⟩

/-- Claim C2: recording `(v, r1, d1)` with no pending entry for `v` and then
`(v, r2, d2)` with `r1 ≠ r2` makes the second call return the first call's
line reference, leaves `v` pending on `r2` at distance `d2`, and leaves both
totals tables unchanged. -/
theorem claim_C2 (s : state_t) (v : String) (r1 r2 : Nat × Char) (d1 d2 : Int)
    (ld1 ld2 : Nat × String) (h : lookupD v s.not_finished = none) (hne : r1 ≠ r2) :
    (add_entry s v r1 d1 ld1).2 = none
    ∧ (add_entry (add_entry s v r1 d1 ld1).1 v r2 d2 ld2).2 = some ld1
    ∧ lookupD v (add_entry (add_entry s v r1 d1 ld1).1 v r2 d2 ld2).1.not_finished
        = some (r2, d2, ld2)
    ∧ (add_entry (add_entry s v r1 d1 ld1).1 v r2 d2 ld2).1.roads_data = s.roads_data
    ∧ (add_entry (add_entry s v r1 d1 ld1).1 v r2 d2 ld2).1.vehicles_data = s.vehicles_data := by
  have e1 := add_entry_no_pending s v r1 d1 ld1 h
  have hl : lookupD v (insertSorted strLt v (r1, d1, ld1) s.not_finished) = some (r1, d1, ld1) :=
    lookupD_insertSorted_self strLt strLt_irrefl v _ _
  have e2 := add_entry_conflict
    ({ s with not_finished := insertSorted strLt v (r1, d1, ld1) s.not_finished })
    v r1 r2 d1 d2 ld1 ld2 hl hne
  rw [e1]
  simp only at e2
  rw [e2]
  refine ⟨rfl, rfl, ?_, rfl, rfl⟩
  exact lookupD_insertSorted_self strLt strLt_irrefl v _ _

/-- Claim C2 witness: the spec's scenario `ABC123 A1 10,0` then `ABC123 S2
5,0` from the empty ledger. -/
theorem claim_C2_witness :
    lookupD "ABC123" initial_state.not_finished = none
    ∧ ((1, 'A') : Nat × Char) ≠ (2, 'S')
    ∧ ((add_entry initial_state "ABC123" (1, 'A') 100 (1, "ABC123 A1 10,0")).2 = none
    ∧ (add_entry (add_entry initial_state "ABC123" (1, 'A') 100 (1, "ABC123 A1 10,0")).1 "ABC123" (2, 'S') 50 (2, "ABC123 S2 5,0")).2 = some (1, "ABC123 A1 10,0")
    ∧ lookupD "ABC123" (add_entry (add_entry initial_state "ABC123" (1, 'A') 100 (1, "ABC123 A1 10,0")).1 "ABC123" (2, 'S') 50 (2, "ABC123 S2 5,0")).1.not_finished
        = some ((2, 'S'), 50, (2, "ABC123 S2 5,0"))
    ∧ (add_entry (add_entry initial_state "ABC123" (1, 'A') 100 (1, "ABC123 A1 10,0")).1 "ABC123" (2, 'S') 50 (2, "ABC123 S2 5,0")).1.roads_data = initial_state.roads_data
    ∧ (add_entry (add_entry initial_state "ABC123" (1, 'A') 100 (1, "ABC123 A1 10,0")).1 "ABC123" (2, 'S') 50 (2, "ABC123 S2 5,0")).1.vehicles_data = initial_state.vehicles_data) :=
  ⟨by decide, by decide,
   claim_C2 initial_state "ABC123" (1, 'A') (2, 'S') 100 50 (1, "ABC123 A1 10,0") (2, "ABC123 S2 5,0") (by decide) (by decide)⟩

/-- Claim C4 counterexample: a segment-closing call to `add_entry` mutates
both state groups at once — it changes `RoadTotals` and `RoadTypeTotals` and
also removes the pending entry — refuting "never parts of both groups in a
single call". -/
theorem claim_C4_counterexample :
    (add_entry ⟨[], [], [("ABC123", ((1, 'A'), 100, (1, "ABC123 A1 10,0")))]⟩
        "ABC123" (1, 'A') 150 (2, "ABC123 A1 15,0")).1.not_finished
      ≠ (⟨[], [], [("ABC123", ((1, 'A'), 100, (1, "ABC123 A1 10,0")))]⟩ : state_t).not_finished
    ∧ (add_entry ⟨[], [], [("ABC123", ((1, 'A'), 100, (1, "ABC123 A1 10,0")))]⟩
        "ABC123" (1, 'A') 150 (2, "ABC123 A1 15,0")).1.roads_data
      ≠ (⟨[], [], [("ABC123", ((1, 'A'), 100, (1, "ABC123 A1 10,0")))]⟩ : state_t).roads_data
    ∧ (add_entry ⟨[], [], [("ABC123", ((1, 'A'), 100, (1, "ABC123 A1 10,0")))]⟩
        "ABC123" (1, 'A') 150 (2, "ABC123 A1 15,0")).1.vehicles_data
      ≠ (⟨[], [], [("ABC123", ((1, 'A'), 100, (1, "ABC123 A1 10,0")))]⟩ : state_t).vehicles_data := by
  refine ⟨?_, ?_, ?_⟩ <;> decide

/-- Claim C4 (amended): each `add_entry` call either mutates only
`PendingEntries` (storing or replacing the vehicle's pending entry, totals
unchanged), or — when it closes a matched segment — mutates both groups:
it adds the traveled distance to `RoadTotals` and `RoadTypeTotals` and
removes the vehicle's pending entry. -/
theorem claim_C4_amended_thm (s : state_t) (v : String) (r : Nat × Char) (d : Int)
    (ld : Nat × String) :
    ((add_entry s v r d ld).1.vehicles_data = s.vehicles_data
      ∧ (add_entry s v r d ld).1.roads_data = s.roads_data
      ∧ (add_entry s v r d ld).1.not_finished
          = insertSorted strLt v (r, d, ld) s.not_finished)
    ∨ (∃ d0 ld0, lookupD v s.not_finished = some (r, d0, ld0)
      ∧ (add_entry s v r d ld).1.vehicles_data = addVehType v r.2 (traveled32 d d0) s.vehicles_data
      ∧ (add_entry s v r d ld).1.roads_data = addTo roadLt r (traveled32 d d0) s.roads_data
      ∧ (add_entry s v r d ld).1.not_finished = eraseKey v s.not_finished) := by
  match h : lookupD v s.not_finished with
  | none =>
    left
    rw [add_entry_no_pending s v r d ld h]
    exact ⟨rfl, rfl, rfl⟩
  | some (nf_road, d0, ld0) =>
    by_cases hr : nf_road = r
    · subst hr
      right
      refine ⟨d0, ld0, rfl, ?_⟩
      rw [add_entry_match s v nf_road d0 d ld0 ld h]
      exact ⟨rfl, rfl, rfl⟩
    · left
      rw [add_entry_conflict s v nf_road r d0 d ld0 ld h hr]
      exact ⟨rfl, rfl, rfl⟩

/-! ## Facts about the dispatcher -/

theorem parse_command_empty : parse_command "" = none := rfl

theorem parse_info_empty : parse_info "" = none := rfl

/-- Claim C5: every line that parses as a command (any of the three query
forms) leaves the ledger state unchanged, and issuing the same query twice in
a row produces identical output both times. -/
theorem claim_C5 (s : state_t) (n m : Nat) (line : String)
    (h : (parse_command line).isSome = true) :
    (handle_line s (n, line)).1 = s
    ∧ (handle_line s (n, line)).2.1
        = (handle_line (handle_line s (n, line)).1 (m, line)).2.1 := by
  have hne : line ≠ "" := by
    intro he
    subst he
    rw [parse_command_empty] at h
    simp at h
  obtain ⟨cmd, hcmd⟩ := Option.isSome_iff_exists.mp h
  constructor
  · simp [handle_line, hne, handle_command, hcmd]
  · simp [handle_line, hne, handle_command, hcmd]

/-- Claim C5 witness: the no-argument query on the empty ledger. -/
theorem claim_C5_witness :
    (parse_command "?").isSome = true
    ∧ ((handle_line initial_state (1, "?")).1 = initial_state
    ∧ (handle_line initial_state (1, "?")).2.1
        = (handle_line (handle_line initial_state (1, "?")).1 (2, "?")).2.1) :=
  ⟨by decide, claim_C5 initial_state 1 2 "?" (by decide)⟩

/-- Claim C7: a line matching neither the blank, command nor record grammar
produces exactly the diagnostic `Error in line <n>: <text>`, leaves the state
unchanged, and the run continues with the remaining lines. -/
theorem claim_C7 (s : state_t) (n : Nat) (text : String)
    (h0 : text ≠ "") (h1 : parse_command text = none) (h2 : parse_info text = none) :
    handle_line s (n, text) = (s, [], [print_error (n, text)])
    ∧ ∀ (start : Nat) (rest : List String),
        run s start (text :: rest)
          = ((run s (start + 1) rest).1,
             (run s (start + 1) rest).2.1,
             print_error (start + 1, text) :: (run s (start + 1) rest).2.2) := by
  have hline : ∀ k : Nat, handle_line s (k, text) = (s, [], [print_error (k, text)]) := by
    intro k
    simp [handle_line, h0, handle_command, h1, handle_info, h2]
  constructor
  · exact hline n
  · intro start rest
    simp [run, hline (start + 1)]

/-- Claim C7 witness: the spec's malformed line `hello world` as line 1 of a
run from the empty ledger. -/
theorem claim_C7_witness :
    ("hello world" : String) ≠ ""
    ∧ parse_command "hello world" = none
    ∧ parse_info "hello world" = none
    ∧ handle_line initial_state (1, "hello world")
        = (initial_state, [], [print_error (1, "hello world")])
    ∧ run initial_state 0 ["hello world"]
        = ((run initial_state 1 []).1,
           (run initial_state 1 []).2.1,
           print_error (1, "hello world") :: (run initial_state 1 []).2.2) :=
  ⟨by decide, by decide, by decide,
   (claim_C7 initial_state 1 "hello world" (by decide) (by decide) (by decide)).1,
   (claim_C7 initial_state 0 "hello world" (by decide) (by decide) (by decide)).2 0 []⟩

theorem words_aux_all_ws (fuel : Nat) (l : List Char) (h : l.dropWhile isWS = []) :
    words_aux fuel l = [] := by
  cases fuel with
  | zero => rfl
  | succ fuel => simp [words_aux, h]

/-- Claim C9: a non-empty line consisting only of whitespace is diagnosed as
malformed (it is neither blank, nor a command, nor a record) and leaves the
state unchanged; only the zero-character line is skipped silently. -/
theorem claim_C9 (s : state_t) (n : Nat) (text : String)
    (h0 : text ≠ "") (h1 : text.data.all isWS = true) :
    handle_line s (n, text) = (s, [], [print_error (n, text)])
    ∧ ∀ m : Nat, handle_line s (m, "") = (s, [], []) := by
  have hdrop : text.data.dropWhile isWS = [] := by
    rw [List.dropWhile_eq_nil_iff]
    intro x hx
    exact List.all_eq_true.mp h1 x hx
  have hpc : parse_command text = none := by
    simp [parse_command, toCommandArg, hdrop]
  have hpi : parse_info text = none := by
    simp [parse_info, split_args, words_aux_all_ws _ _ hdrop]
  constructor
  · simp [handle_line, h0, handle_command, hpc, handle_info, hpi]
  · intro m
    simp [handle_line]

/-- Claim C9 witness: a single-space line as line 1. -/
theorem claim_C9_witness :
    (" " : String) ≠ ""
    ∧ " ".data.all isWS = true
    ∧ handle_line initial_state (1, " ")
        = (initial_state, [], [print_error (1, " ")])
    ∧ handle_line initial_state (2, "") = (initial_state, [], []) :=
  ⟨by decide, by decide,
   (claim_C9 initial_state 1 " " (by decide) (by decide)).1,
   (claim_C9 initial_state 1 " " (by decide) (by decide)).2 2⟩


/-! ## Appending input lines to a run -/

theorem run_append (s : state_t) (n : Nat) (xs ys : List String) :
    run s n (xs ++ ys)
      = ((run (run s n xs).1 (n + xs.length) ys).1,
         (run s n xs).2.1 ++ (run (run s n xs).1 (n + xs.length) ys).2.1,
         (run s n xs).2.2 ++ (run (run s n xs).1 (n + xs.length) ys).2.2) := by
  induction xs generalizing s n with
  | nil => simp [run]
  | cons x xs ih =>
    show run s n (x :: (xs ++ ys)) = _
    simp only [run]
    rw [ih]
    simp only [List.length_cons]
    have he : n + 1 + xs.length = n + (xs.length + 1) := by omega
    rw [he]
    simp [List.append_assoc]

/-- Claim C6: a crossing record that opens a fresh pending entry as the very
last input line adds nothing to the outputs and nothing to either totals
table — the pending entry it leaves behind is simply discarded at end of
input, with no diagnostic. -/
theorem claim_C6 (lines : List String) (lastLine : String) (v : String)
    (r : Nat × Char) (d : Int)
    (h1 : parse_command lastLine = none)
    (h2 : parse_info lastLine = some (v, r, d))
    (h3 : lookupD v (handle_all lines).1.not_finished = none) :
    (handle_all (lines ++ [lastLine])).2.1 = (handle_all lines).2.1
    ∧ (handle_all (lines ++ [lastLine])).2.2 = (handle_all lines).2.2
    ∧ (handle_all (lines ++ [lastLine])).1.vehicles_data = (handle_all lines).1.vehicles_data
    ∧ (handle_all (lines ++ [lastLine])).1.roads_data = (handle_all lines).1.roads_data := by
  have hne : lastLine ≠ "" := by
    intro he
    subst he
    rw [parse_info_empty] at h2
    exact Option.noConfusion h2
  have hstep : handle_line (handle_all lines).1 (lines.length + 1, lastLine)
      = ({ (handle_all lines).1 with
            not_finished := insertSorted strLt v (r, d, (lines.length + 1, lastLine))
              (handle_all lines).1.not_finished }, [], []) := by
    simp [handle_line, hne, handle_command, h1, handle_info, h2,
          add_entry_no_pending _ v r d _ h3]
  have hall : handle_all (lines ++ [lastLine])
      = ((run (handle_all lines).1 lines.length [lastLine]).1,
         (handle_all lines).2.1 ++ (run (handle_all lines).1 lines.length [lastLine]).2.1,
         (handle_all lines).2.2 ++ (run (handle_all lines).1 lines.length [lastLine]).2.2) := by
    show run initial_state 0 (lines ++ [lastLine]) = _
    rw [run_append]
    simp [handle_all]
  rw [hall]
  simp [run, hstep]

/-- Claim C6 witness: a single fresh record as the whole input. -/
theorem claim_C6_witness :
    parse_command "XYZ789 A1 10,0" = none
    ∧ parse_info "XYZ789 A1 10,0" = some ("XYZ789", (1, 'A'), 100)
    ∧ lookupD "XYZ789" (handle_all []).1.not_finished = none
    ∧ ((handle_all ([] ++ ["XYZ789 A1 10,0"])).2.1 = (handle_all []).2.1
    ∧ (handle_all ([] ++ ["XYZ789 A1 10,0"])).2.2 = (handle_all []).2.2
    ∧ (handle_all ([] ++ ["XYZ789 A1 10,0"])).1.vehicles_data = (handle_all []).1.vehicles_data
    ∧ (handle_all ([] ++ ["XYZ789 A1 10,0"])).1.roads_data = (handle_all []).1.roads_data) :=
  ⟨by decide, by decide, by decide,
   claim_C6 [] "XYZ789 A1 10,0" "XYZ789" (1, 'A') 100 (by decide) (by decide) (by decide)⟩
/-! ## Command parsing of a road-shaped argument -/

theorem not_ws_of_digit {c : Char} (h : isDigitC c = true) : isWS c = false := by
  simp only [isDigitC, Bool.and_eq_true, decide_eq_true_eq] at h
  simp only [isWS, Bool.or_eq_false_iff, decide_eq_false_iff_not]
  omega

theorem takeWhile_all {p : Char → Bool} :
    ∀ {l : List Char}, (∀ c ∈ l, p c = true) → l.takeWhile p = l := by
  intro l
  induction l with
  | nil => intro _; rfl
  | cons c cs ih =>
    intro h
    rw [List.takeWhile_cons, h c (List.mem_cons_self c cs)]
    simp only [if_true]
    rw [ih fun x hx => h x (List.mem_cons_of_mem _ hx)]

theorem parse_road_inv {arg : String} {r : Nat × Char} (h : parse_road arg = some r) :
    ∃ c ds, arg.data = c :: ds ∧ (c = 'A' ∨ c = 'S')
      ∧ parse_road.roadNumPart ds = true ∧ r = (digitsVal ds, c) := by
  unfold parse_road at h
  match hd : arg.data with
  | [] => rw [hd] at h; exact Option.noConfusion h
  | c :: ds =>
    rw [hd] at h
    have h3 : (if (c = 'A' ∨ c = 'S') ∧ parse_road.roadNumPart ds = true
        then some (digitsVal ds, c) else none) = some r := h
    by_cases hc : (c = 'A' ∨ c = 'S') ∧ parse_road.roadNumPart ds = true
    · rw [if_pos hc] at h3
      injection h3 with h3
      exact ⟨c, ds, rfl, hc.1, hc.2, h3.symm⟩
    · rw [if_neg hc] at h3
      exact Option.noConfusion h3

theorem road_arg_not_ws {arg : String} {r : Nat × Char} (h : parse_road arg = some r) :
    ∀ x ∈ arg.data, isWS x = false := by
  obtain ⟨c, ds, hd, hc, hnum, _⟩ := parse_road_inv h
  rw [hd]
  intro x hx
  rcases List.mem_cons.mp hx with rfl | hx
  · rcases hc with rfl | rfl <;> rfl
  · cases ds with
    | nil => simp [parse_road.roadNumPart] at hnum
    | cons d0 rest =>
      simp only [parse_road.roadNumPart, Bool.and_eq_true] at hnum
      obtain ⟨⟨⟨_, hd0⟩, hrest⟩, _⟩ := hnum
      rcases List.mem_cons.mp hx with rfl | hx2
      · exact not_ws_of_digit hd0
      · exact not_ws_of_digit (List.all_eq_true.mp hrest x hx2)

theorem toCommandArg_query (a0 : Char) (arest : List Char)
    (hnw : ∀ c ∈ a0 :: arest, isWS c = false) :
    toCommandArg ('?' :: ' ' :: a0 :: arest) = some (a0 :: arest) := by
  have ha0 := hnw a0 (List.mem_cons_self a0 arest)
  have hdrop1 : ('?' :: ' ' :: a0 :: arest).dropWhile isWS = '?' :: ' ' :: a0 :: arest := by
    rw [List.dropWhile_cons, if_neg (by decide)]
  have hdrop2 : (' ' :: a0 :: arest).dropWhile isWS = a0 :: arest := by
    rw [List.dropWhile_cons, if_pos (by decide), List.dropWhile_cons, if_neg (by simp [ha0])]
  have htok : (a0 :: arest).takeWhile (fun x => !isWS x) = a0 :: arest :=
    takeWhile_all fun c hc => by simp [hnw c hc]
  have hdrop3 : (a0 :: arest).dropWhile (fun x => !isWS x) = [] := by
    rw [List.dropWhile_eq_nil_iff]
    intro x hx
    simp [hnw x hx]
  simp [toCommandArg, hdrop1, hdrop2, htok, hdrop3]

theorem parse_command_query (arg : String) (r : Nat × Char) (v : String)
    (hr : parse_road arg = some r) (hv : parse_vehicle arg = some v) :
    parse_command ("? " ++ arg) = some (some r, some v) := by
  obtain ⟨c, ds, hd, _, _, _⟩ := parse_road_inv hr
  have hnw : ∀ x ∈ arg.data, isWS x = false := road_arg_not_ws hr
  have hdata : ("? " ++ arg).data = '?' :: ' ' :: arg.data := rfl
  have harg : String.mk (c :: ds) = arg := by
    rw [← hd]
  have htc : toCommandArg ("? " ++ arg).data = some (c :: ds) := by
    rw [hdata, hd]
    exact toCommandArg_query c ds (by rw [← hd]; exact hnw)
  simp only [parse_command, htc, harg, hr, hv]

/-- Claim C8: when a command argument parses both as a road and as a vehicle,
the query dispatch tolerates both and reports both sections: the vehicle's
road-type totals line (if that vehicle is present), then the road's total
line (if that road is present). -/
theorem claim_C8 (s : state_t) (arg : String) (r : Nat × Char) (v : String)
    (hr : parse_road arg = some r) (hv : parse_vehicle arg = some v) :
    handle_command s ("? " ++ arg)
      = some ((match lookupD v s.vehicles_data with
              | some inner => [fmtVehicleLine (v, inner)]
              | none => [])
            ++ (match lookupD r s.roads_data with
              | some dist => [fmtRoadLine (r, dist)]
              | none => [])) := by
  simp only [handle_command, parse_command_query arg r v hr hv, List.nil_append]

/-- Claim C8 witness: the argument `A12` parses as road `(12, A)` and as
plate `A12`; on a ledger containing both, both sections are reported. -/
theorem claim_C8_witness :
    parse_road "A12" = some (12, 'A')
    ∧ parse_vehicle "A12" = some "A12"
    ∧ handle_command (⟨[("A12", [('A', 50)])], [((12, 'A'), 70)], []⟩ : state_t) ("? " ++ "A12")
      = some ((match lookupD "A12" (⟨[("A12", [('A', 50)])], [((12, 'A'), 70)], []⟩ : state_t).vehicles_data with
              | some inner => [fmtVehicleLine ("A12", inner)]
              | none => [])
            ++ (match lookupD (12, 'A') (⟨[("A12", [('A', 50)])], [((12, 'A'), 70)], []⟩ : state_t).roads_data with
              | some dist => [fmtRoadLine ((12, 'A'), dist)]
              | none => [])) :=
  ⟨by decide, by decide,
   claim_C8 ⟨[("A12", [('A', 50)])], [((12, 'A'), 70)], []⟩ "A12" (12, 'A') "A12"
     (by decide) (by decide)⟩

/-! ## The sortedness invariant of reachable states -/

theorem strLt_trans_fn : ∀ x y z : String,
    strLt x y = true → strLt y z = true → strLt x z = true :=
  fun _ _ _ hx hy => strLt_trans hx hy

theorem charLtB_trans_fn : ∀ x y z : Char,
    charLtB x y = true → charLtB y z = true → charLtB x z = true :=
  fun _ _ _ hx hy => charLtB_trans hx hy

theorem charLtB_conn_fn : ∀ x y : Char,
    charLtB x y = false → charLtB y x = false → x = y :=
  fun _ _ hx hy => charLtB_conn hx hy

theorem roadLt_trans_fn : ∀ x y z : Nat × Char,
    roadLt x y = true → roadLt y z = true → roadLt x z = true :=
  fun _ _ _ hx hy => roadLt_trans hx hy

theorem roadLt_conn_fn : ∀ x y : Nat × Char,
    roadLt x y = false → roadLt y x = false → x = y :=
  fun _ _ hx hy => roadLt_conn hx hy

/-- Keys strictly increasing under `lt`, entrywise. -/
def keyLtP {γ : Type} (lt : α → α → Bool) (x y : α × γ) : Prop := lt x.1 y.1 = true

/-- All four maps of the state are sorted by their `std::map` key order, the
inner road-type maps included. -/
def sorted_state (s : state_t) : Prop :=
  s.vehicles_data.Pairwise (keyLtP strLt)
  ∧ (∀ p ∈ s.vehicles_data, p.2.Pairwise (keyLtP charLtB))
  ∧ s.roads_data.Pairwise (keyLtP roadLt)
  ∧ s.not_finished.Pairwise (keyLtP strLt)

theorem sorted_initial : sorted_state initial_state := by
  refine ⟨List.Pairwise.nil, ?_, List.Pairwise.nil, List.Pairwise.nil⟩
  intro p hp
  simp [initial_state] at hp

theorem sorted_add_entry (s : state_t) (v : String) (r : Nat × Char) (d : Int)
    (ld : Nat × String) (h : sorted_state s) :
    sorted_state (add_entry s v r d ld).1 := by
  obtain ⟨hv, hinner, hr, hnf⟩ := h
  match hl : lookupD v s.not_finished with
  | none =>
    rw [add_entry_no_pending s v r d ld hl]
    exact ⟨hv, hinner, hr,
      pairwise_insertSorted strLt strLt_trans_fn strLt_conn_fn _ _ hnf⟩
  | some (nf_road, d0, ld0) =>
    by_cases hrr : nf_road = r
    · subst hrr
      rw [add_entry_match s v nf_road d0 d ld0 ld hl]
      refine ⟨?_, ?_, ?_, ?_⟩
      · exact pairwise_insertSorted strLt strLt_trans_fn strLt_conn_fn _ _ hv
      · intro p hp
        rcases mem_insertSorted strLt v _ hp with he | hm
        · rw [he]
          apply pairwise_insertSorted charLtB charLtB_trans_fn charLtB_conn_fn
          match hlv : lookupD v s.vehicles_data with
          | none => simp
          | some i =>
            simpa using hinner (v, i) (lookupD_mem hlv)
        · exact hinner p hm
      · exact pairwise_insertSorted roadLt roadLt_trans_fn roadLt_conn_fn _ _ hr
      · exact pairwise_eraseKey v hnf
    · rw [add_entry_conflict s v nf_road r d0 d ld0 ld hl hrr]
      exact ⟨hv, hinner, hr,
        pairwise_insertSorted strLt strLt_trans_fn strLt_conn_fn _ _ hnf⟩

theorem sorted_handle_line (s : state_t) (ld : Nat × String) (h : sorted_state s) :
    sorted_state (handle_line s ld).1 := by
  by_cases he : ld.2 = ""
  · simpa [handle_line, he] using h
  · match hc : handle_command s ld.2 with
    | some out => simpa [handle_line, he, hc] using h
    | none =>
      match hi : parse_info ld.2 with
      | some (v, r, d) =>
        have hsl : (handle_line s ld).1 = (add_entry s v r d ld).1 := by
          simp [handle_line, he, hc, handle_info, hi]
        rw [hsl]
        exact sorted_add_entry s v r d ld h
      | none => simpa [handle_line, he, hc, handle_info, hi] using h

theorem sorted_run (s : state_t) (n : Nat) (lines : List String) (h : sorted_state s) :
    sorted_state (run s n lines).1 := by
  induction lines generalizing s n with
  | nil => simpa [run] using h
  | cons l rest ih =>
    simp only [run]
    exact ih _ _ (sorted_handle_line _ _ h)

theorem handle_command_query_all (s : state_t) :
    handle_command s "?"
      = some (s.vehicles_data.map fmtVehicleLine ++ s.roads_data.map fmtRoadLine) := by
  have h : parse_command "?" = some (none, none) := rfl
  simp only [handle_command, h, List.append_nil]

/-- Claim C3: after any input, the no-argument query emits one line per
vehicle in `RoadTypeTotals` followed by one line per road in `RoadTotals`;
the vehicles are in strictly increasing plate order, each vehicle's road-type
totals are in strictly increasing type-letter order, and the roads are in
strictly increasing `(number, type)` order — so `S3` precedes `A12`, and
`A12` precedes `S12`. -/
theorem claim_C3 (lines : List String) (n : Nat) :
    (handle_line (handle_all lines).1 (n, "?")).2.1
      = (handle_all lines).1.vehicles_data.map fmtVehicleLine
        ++ (handle_all lines).1.roads_data.map fmtRoadLine
    ∧ (handle_all lines).1.vehicles_data.Pairwise (keyLtP strLt)
    ∧ (∀ p ∈ (handle_all lines).1.vehicles_data, p.2.Pairwise (keyLtP charLtB))
    ∧ (handle_all lines).1.roads_data.Pairwise (keyLtP roadLt)
    ∧ roadLt (3, 'S') (12, 'A') = true
    ∧ roadLt (12, 'A') (12, 'S') = true := by
  have hs := sorted_run initial_state 0 lines sorted_initial
  obtain ⟨h1, h2, h3, _⟩ := hs
  refine ⟨?_, h1, h2, h3, by decide, by decide⟩
  simp [handle_line, handle_command_query_all]

/-! ## Claim C10: `parse_distance` at the edge of the `int` range -/

/-- Claim C10 (code bug, evaluated): the marker `300000000,0` is in the
grammar and its integer part `300000000` fits in a 32-bit `int`, so `stoi`
succeeds and the guard does not fire; but `300000000 * 10 + 0 = 3000000000`
overflows `int`, so instead of the claimed `3000000000` the code produces the
wrapped value `-1294967296`.  In range, the claimed behavior holds
(`10,0` gives `100`), and an integer part above `INT_MAX` is rejected
(`2147483648,0` gives absence) as claimed. -/
theorem claim_C10_eval :
    parse_distance "300000000,0" = some (-1294967296)
    ∧ parse_distance "10,0" = some 100
    ∧ parse_distance "2147483648,0" = none := by
  refine ⟨?_, ?_, ?_⟩ <;> decide

end Nod
